import Mathlib

/-!
Shallow embedding of the distributed-cron repository's core logic, together
with theorems settling the frozen claims about its specification.

The embedding mirrors, definition by definition:
* internal/domain/job.go          (Job, Job.Validate)
* internal/domain/execution.go    (ExecutionRecord, statuses)
* internal/domain/locker.go       (ErrLockNotAcquired)
* internal/worker/server.go       (Server.ExecuteTask, Server.runJob, protoToDomain)
* internal/infra/http/http_task_executor.go (Execute, doExecute)
* internal/infra/shell/shell_task_executor.go (Execute)
* internal/scheduler/cron_scheduler.go (AddJob, RemoveJob, Stop)
* internal/usecase/job_service.go (SchedularService.Start / runSchedular)
* internal/master/dispatcher.go   (DispatchTask, domainToProto)

External collaborators (etcd, the robfig cron parser, the Go HTTP client,
the OS shell, time and UUID allocation) are modelled as explicit parameters
or environment records, so every definition is executable on concrete input.
Machine time is a natural-number clock; Go `error` values are a small
inductive mirroring `errors.New` / `fmt.Errorf("...: %w", e)` wrapping.
-/

set_option maxRecDepth 2048

deriving instance DecidableEq for Except

namespace DCron

/-- Go `error` values as produced by this repository: `errors.New`-style
leaves, `net.Error` values with a `Timeout()` flag, and
`fmt.Errorf("<pre>%w", inner)` wrapping (whose message is the prefix
followed by the inner message, and which `errors.As` unwraps). -/
inductive GoError where
  | simple (msg : String)
  | netError (msg : String) (timeout : Bool)
  | wrap (pre : String) (inner : GoError)
deriving DecidableEq, Repr

/-- The `Error()` string of a Go error value. -/
def GoError.msg : GoError → String
  | .simple m => m
  | .netError m _ => m
  | .wrap pre inner => pre ++ inner.msg

/-- `errors.As(err, &netErr) && netErr.Timeout()`: looks through `%w`
wrapping for a `net.Error` and reads its `Timeout()`. -/
def GoError.isNetTimeout : GoError → Bool
  | .simple _ => false
  | .netError _ t => t
  | .wrap _ inner => inner.isNetTimeout

/-- `domain.ErrLockNotAcquired = errors.New("lock not acquired")`
(internal/domain/locker.go). -/
def errLockNotAcquired : GoError := .simple "lock not acquired"

/-- Scan helper for `strContains`: does `sub` occur in `l`? -/
def charsContain (sub : List Char) : List Char → Bool
  | [] => sub.isEmpty
  | c :: t => sub.isPrefixOf (c :: t) || charsContain sub t

/-- `strings.Contains s sub` (substring test on the underlying characters). -/
def strContains (s sub : String) : Bool := charsContain sub.toList s.toList

/-- `domain.RetryPolicy`: `MaxRetries int`, `Backoff time.Duration`
(modelled in nanoseconds). -/
structure RetryPolicy where
  maxRetries : Int
  backoff : Nat
deriving DecidableEq, Repr

/-- `domain.JobExecutor`: URL/Method for http jobs, Command for shell jobs. -/
structure JobExecutor where
  url : String
  method : String
  command : String
deriving DecidableEq, Repr

/-- `domain.Job`. `ExecutorType` and `ConcurrencyPolicy` are Go string
types, kept as strings (the named constants are "http", "shell", "Allow",
"Forbid"); times are naturals. -/
structure Job where
  id : String
  name : String
  cronExpr : String
  executorType : String
  executor : JobExecutor
  concurrencyPolicy : String
  retryPolicy : Option RetryPolicy
  createdAt : Nat
  updatedAt : Nat
deriving DecidableEq, Repr

/-- `Job.Validate` (internal/domain/job.go lines 51-78). The Go method
mutates the receiver (defaulting `Method` to "GET" and an empty
`ConcurrencyPolicy` to "Allow"); the model returns the updated job on
success and the error otherwise, preserving the exact check order. -/
def jobValidate (j : Job) : Except GoError Job :=
  if j.name = "" then
    .error (.simple "job name cannot be empty")
  else if j.cronExpr = "" then
    .error (.simple "cron expression cannot be empty")
  else if j.executorType = "http" then
    if j.executor.url = "" then
      .error (.simple "executor URL cannot be empty for http job")
    else
      let j1 := if j.executor.method = "" then
          { j with executor := { j.executor with method := "GET" } }
        else j
      .ok { j1 with concurrencyPolicy :=
              if j1.concurrencyPolicy = "" then "Allow" else j1.concurrencyPolicy }
  else if j.executorType = "shell" then
    if j.executor.command = "" then
      .error (.simple "executor command cannot be empty for shell job")
    else
      .ok { j with concurrencyPolicy :=
              if j.concurrencyPolicy = "" then "Allow" else j.concurrencyPolicy }
  else
    .error (.simple ("invalid executor type: " ++ j.executorType))

/-- `domain.ExecutionStatus` constants "running" / "success" / "failed". -/
inductive ExecStatus where
  | running
  | success
  | failed
deriving DecidableEq, Repr

/-- `domain.ExecutionRecord` (internal/domain/execution.go). -/
structure ExecutionRecord where
  id : String
  jobName : String
  startTime : Nat
  endTime : Nat
  status : ExecStatus
  output : String
  error : String
  retriesAttempted : Nat
  workerId : String
deriving DecidableEq, Repr

/-! ## Worker-side execution supervisor (internal/worker/server.go) -/

/-- Outcome of `executor.Execute(ctx, job)` as seen by `runJob`: a normal
return `(output, nil)`, an error return `(output, err)` (Go executors
return a partial output alongside the error), or an unhandled panic. -/
inductive ExecOutcome where
  | ok (out : String)
  | fail (e : GoError) (out : String)
  | panicked (msg : String)
deriving DecidableEq, Repr

/-- The environment one `runJob` call interacts with: whether each
repository `Save` succeeds, the result of `locker.Lock` (consulted only
when the job's policy is "Forbid"; `none` means acquired, `some e` the
error returned), and the executor's behaviour. -/
structure RunEnv where
  initialSaveOk : Bool
  lockResult : Option GoError
  finalSaveOk : Bool
  outcome : ExecOutcome
deriving DecidableEq, Repr

/-- Observable steps of one `runJob` call, in program order: repository
`Save` attempts (with the record saved and whether the save succeeded),
the `locker.Lock` attempt with its context-timeout in seconds, lock
acquisition, executor invocation, and `lock.Unlock`. -/
inductive WEvent where
  | save (r : ExecutionRecord) (persisted : Bool)
  | lockAttempt (lockName : String) (timeoutSecs : Nat)
  | lockAcquired (lockName : String)
  | execCall (jobName : String)
  | unlock (lockName : String)
deriving DecidableEq, Repr

/-- Tail of `runJob` after the Forbid gate is settled (server.go lines
156-167 plus the deferred funcs at lines 100-131 and 145-153): executor
lookup in the registry, executor invocation, unlock (the unlock defer
runs before the final-save defer), and the final record computed by the
two deferred funcs — `EndTime` set once to the final clock reading,
status `success`/`failed` from `execErr`, a `recover`ed panic overriding
both with status `failed` and error `"panic: <v>"`. -/
def runJobFinish (registry : List String) (env : RunEnv) (job : Job)
    (executionID workerID : String) (t0 t1 : Nat)
    (lockEvents : List WEvent) (lockHeld : Bool) :
    List WEvent × ExecutionRecord :=
  let (execEvents, st, er, out) :=
    if registry.contains job.executorType then
      match env.outcome with
      | .ok o => ([WEvent.execCall job.name], ExecStatus.success, "", o)
      | .fail e o => ([WEvent.execCall job.name], ExecStatus.failed, e.msg, o)
      | .panicked m =>
          ([WEvent.execCall job.name], ExecStatus.failed, "panic: " ++ m, "")
    else
      ([], ExecStatus.failed, "no executor found for type: " ++ job.executorType, "")
  let unlockEvents := if lockHeld then [WEvent.unlock job.name] else []
  let fin : ExecutionRecord :=
    ⟨executionID, job.name, t0, t1, st, out, er, 0, workerID⟩
  (lockEvents ++ execEvents ++ unlockEvents ++ [WEvent.save fin env.finalSaveOk], fin)

/-- `Server.runJob` (server.go lines 72-167). Returns the event trace and
the finally-persisted record. `t0` is the `time.Now()` read at record
creation, `t1` the one read in the final defer; both saves are attempted
whatever their outcome. Under `ConcurrencyPolicy "Forbid"` the lock is
attempted with a 2-second context deadline before the executor runs; a
lock error ends the execution with status failed and error
`"skipped execution: " ++ err.Error()` with no executor call and no
unlock. -/
def runJob (registry : List String) (env : RunEnv) (job : Job)
    (executionID workerID : String) (t0 t1 : Nat) :
    List WEvent × ExecutionRecord :=
  let rec0 : ExecutionRecord :=
    ⟨executionID, job.name, t0, 0, ExecStatus.running, "", "", 0, workerID⟩
  let (tail, fin) :=
    if job.concurrencyPolicy = "Forbid" then
      match env.lockResult with
      | some e =>
          let fin : ExecutionRecord :=
            ⟨executionID, job.name, t0, t1, ExecStatus.failed, "",
              "skipped execution: " ++ e.msg, 0, workerID⟩
          ([WEvent.lockAttempt job.name 2, WEvent.save fin env.finalSaveOk], fin)
      | none =>
          runJobFinish registry env job executionID workerID t0 t1
            [WEvent.lockAttempt job.name 2, WEvent.lockAcquired job.name] true
    else
      runJobFinish registry env job executionID workerID t0 t1 [] false
  (WEvent.save rec0 env.initialSaveOk :: tail, fin)

/-! ## Wire protocol and `ExecuteTask` (proto + server.go lines 45-69) -/

/-- `pb.TaskRequest`: the retry policy carries `max_retries : int32` and
`backoff` as a duration string, executors as optional messages. -/
structure TaskRequestM where
  id : String
  name : String
  cronExpr : String
  executorType : String
  httpExecutor : Option (String × String)
  shellExecutor : Option String
  concurrencyPolicy : String
  retryPolicy : Option (Int × String)
  createdAt : Nat
deriving DecidableEq, Repr

/-- `pb.TaskResponse`: `execution_id` or `error_message`. -/
structure TaskResponse where
  executionId : String
  errorMessage : String
deriving DecidableEq, Repr

/-- The executor-switch of `Server.protoToDomain` (server.go lines
181-199). -/
def protoExecPart (req : TaskRequestM) : Except GoError JobExecutor :=
  if req.executorType = "http" then
    match req.httpExecutor with
    | none => .error (.simple "http_executor is nil for http job type")
    | some (url, method) => .ok (JobExecutor.mk url method "")
  else if req.executorType = "shell" then
    match req.shellExecutor with
    | none => .error (.simple "shell_executor is nil for shell job type")
    | some cmd => .ok (JobExecutor.mk "" "" cmd)
  else
    .error (.simple ("unknown executor type: " ++ req.executorType))

/-- The retry-policy part of `protoToDomain` (server.go lines 201-210),
parameterised by `time.ParseDuration` (an external library function). -/
def protoRetryPart (parseDur : String → Except GoError Nat)
    (req : TaskRequestM) : Except GoError (Option RetryPolicy) :=
  match req.retryPolicy with
  | none => .ok none
  | some (maxR, backoffStr) =>
      match parseDur backoffStr with
      | .error e => .error (.wrap "invalid backoff duration: " e)
      | .ok d => .ok (some (RetryPolicy.mk maxR d))

/-- `Server.protoToDomain` (server.go lines 170-212). -/
def protoToDomain (parseDur : String → Except GoError Nat)
    (req : TaskRequestM) : Except GoError Job :=
  match protoExecPart req with
  | .error e => .error e
  | .ok exec =>
      match protoRetryPart parseDur req with
      | .error e => .error e
      | .ok pol =>
          .ok { id := req.id, name := req.name, cronExpr := req.cronExpr,
                executorType := req.executorType, executor := exec,
                concurrencyPolicy := req.concurrencyPolicy, retryPolicy := pol,
                createdAt := req.createdAt, updatedAt := 0 }

/-- `Server.ExecuteTask` (server.go lines 45-69) together with the
background `runJob` it spawns: the synchronous RPC reply paired with the
trace of the spawned execution (empty when no execution is started). A
parse failure replies with only `error_message`; otherwise the reply
carries only the freshly allocated `execution_id` and `runJob` runs in
the background. -/
def executeTask (parseDur : String → Except GoError Nat) (freshId : String)
    (registry : List String) (env : RunEnv) (workerID : String) (t0 t1 : Nat)
    (req : TaskRequestM) : TaskResponse × List WEvent :=
  match protoToDomain parseDur req with
  | .error e => (⟨"", e.msg⟩, [])
  | .ok job => (⟨freshId, ""⟩, (runJob registry env job freshId workerID t0 t1).1)

/-! ## HTTP task executor (internal/infra/http/http_task_executor.go) -/

/-- What one `doExecute` attempt meets: `http.NewRequestWithContext`
failure, `client.Do` failure (possibly a `net.Error` timeout), or a
response with its numeric status code, its `resp.Status` line (e.g.
`"404 Not Found"`, reason phrase supplied by the server), and its body. -/
inductive HttpAttempt where
  | reqCreateErr (msg : String)
  | doErr (e : GoError)
  | resp (status : Nat) (statusText : String) (body : String)
deriving DecidableEq, Repr

/-- `httpTaskExecutor.doExecute` (lines 63-86): body capped at 1 KiB
(`io.LimitReader`, modelled on characters), status `>= 500` yields the
`"5xx server error"`, status `>= 400` the `"4xx client error"`, and
`client.Do` errors are wrapped as `"http request failed: %w"`. -/
def doExecute : HttpAttempt → String × Option GoError
  | .reqCreateErr m => ("", some (.wrap "failed to create http request: " (.simple m)))
  | .doErr e => ("", some (.wrap "http request failed: " e))
  | .resp status statusText body =>
      let b := body.take 1024
      if 500 ≤ status then
        (b, some (.simple ("http request returned 5xx server error: " ++ statusText)))
      else if 400 ≤ status then
        (b, some (.simple ("http request returned 4xx client error: " ++ statusText)))
      else
        (b, none)

/-- Retriability test of `Execute` (lines 43-50): a `net.Error` timeout
found through `errors.As`, or an error message containing `"5xx"`
(`strings.Contains`). Everything else is non-retriable. -/
def isRetriableErr (e : GoError) : Bool := e.isNetTimeout || strContains e.msg "5xx"

/-- Result of one `httpTaskExecutor.Execute` call, with the number of
`doExecute` attempts made and `time.Sleep(backoff)` calls performed. -/
structure HttpResult where
  output : String
  err : Option GoError
  attempts : Nat
  sleeps : Nat
deriving DecidableEq, Repr

/-- The Go nil error as rendered by `fmt.Errorf("...: %w", nil)`. Only
reachable when `MaxRetries` is negative (the loop body never runs). -/
def nilErr : GoError := .simple "%!w(<nil>)"

/-- The retry loop of `Execute` (lines 33-59). `att i` is what the i-th
`doExecute` call meets, `fuel` the remaining admissible attempts
(`maxR + 1 - i` at entry), `lastErr` the Go `lastErr` variable. A success
returns that attempt's body; a non-retriable error returns that attempt's
body with the `"non-retriable error on attempt %d"` wrap; exhaustion
returns the OUTER `output` variable — never assigned, hence `""` — with
the `"job failed after %d retries"` wrap of the last error (the loop
variable `output` at line 36 shadows the outer one declared at line 34). -/
def httpRetryLoop (att : Nat → HttpAttempt) (maxR : Int) :
    Nat → Nat → GoError → HttpResult
  | 0, _, lastErr =>
      ⟨"", some (.wrap ("job failed after " ++ toString maxR ++ " retries: ") lastErr), 0, 0⟩
  | fuel + 1, i, _ =>
      let (output, e?) := doExecute (att i)
      match e? with
      | none => ⟨output, none, 1, 0⟩
      | some err =>
          if isRetriableErr err then
            if fuel = 0 then
              ⟨"", some (.wrap ("job failed after " ++ toString maxR ++ " retries: ") err), 1, 0⟩
            else
              let r := httpRetryLoop att maxR fuel (i + 1) err
              ⟨r.output, r.err, r.attempts + 1, r.sleeps + 1⟩
          else
            ⟨output,
              some (.wrap ("non-retriable error on attempt " ++ toString (i + 1) ++ ": ") err),
              1, 0⟩

/-- `httpTaskExecutor.Execute` (lines 28-60): a single `doExecute` when
`retry_policy` is absent or `MaxRetries == 0`, otherwise the retry loop
with `i` ranging over `0 ..= MaxRetries`. -/
def httpExecute (job : Job) (att : Nat → HttpAttempt) : HttpResult :=
  match job.retryPolicy with
  | none => let (o, e) := doExecute (att 0); ⟨o, e, 1, 0⟩
  | some pol =>
      if pol.maxRetries = 0 then
        let (o, e) := doExecute (att 0); ⟨o, e, 1, 0⟩
      else
        httpRetryLoop att pol.maxRetries (pol.maxRetries + 1).toNat 0 nilErr

/-! ## Shell task executor (internal/infra/shell/shell_task_executor.go) -/

/-- Output combination of `shellTaskExecutor.Execute` (lines 54-68). -/
def shellCombineOutput (stdout stderr : String) : String :=
  if stderr ≠ "" then
    if stdout ≠ "" then "[STDERR]:\n" ++ stderr ++ "\n[STDOUT]:\n" ++ stdout
    else "[STDERR]:\n" ++ stderr
  else stdout

/-- `shellTaskExecutor.Execute` (lines 34-78) given the captured stdout,
stderr and the `cmd.Run()` error (`some` for a non-zero exit status, a
start failure, or the 30s deadline): the combined output is returned in
both cases, and a run error is wrapped as `"shell command failed: %w"`. -/
def shellExecute (stdout stderr : String) (runErr : Option GoError) :
    String × Option GoError :=
  let output := shellCombineOutput stdout stderr
  match runErr with
  | some e => (output, some (.wrap "shell command failed: " e))
  | none => (output, none)

/-- The `cmd.Run()` error for a command exiting with a non-zero code
(`*exec.ExitError`, message `"exit status <code>"`). -/
def exitStatusErr (code : Nat) : GoError := .simple ("exit status " ++ toString code)

/-! ## Cron scheduler (internal/scheduler/cron_scheduler.go) -/

/-- State of one `cronScheduler` together with the wrapped `cron.Cron`:
the cron's live entries (entry id paired with the wrapped job, whose
`CronExpr` the firing uses), the cron's next entry-id allocator, the
scheduler's `jobs : map[string]cron.EntryID`, and whether the wheel is
running (`cron.Start` has been called and not yet stopped). -/
structure SchedState where
  cronEntries : List (Nat × Job)
  nextId : Nat
  jobs : List (String × Nat)
  wheelRunning : Bool
deriving DecidableEq, Repr

/-- A fresh scheduler (`NewCronScheduler`). -/
def schedInit : SchedState := ⟨[], 0, [], false⟩

/-- Go map read `v, ok := m[k]` on the association-list model. -/
def assocGet (m : List (String × Nat)) (k : String) : Option Nat :=
  match m with
  | [] => none
  | (k', v') :: t => if k' = k then some v' else assocGet t k

/-- Go map assignment `m[k] = v` on the association-list model. -/
def assocPut (m : List (String × Nat)) (k : String) (v : Nat) :
    List (String × Nat) :=
  match m with
  | [] => [(k, v)]
  | (k', v') :: t => if k' = k then (k, v) :: t else (k', v') :: assocPut t k v

/-- `cron.Remove(entryID)`: drops the entry with that id. -/
def cronRemove (entries : List (Nat × Job)) (eid : Nat) : List (Nat × Job) :=
  entries.filter (fun p => p.1 ≠ eid)

/-- `cronScheduler.AddJob` (lines 53-74), parameterised by the robfig
6-field cron parser (external library), modelled as a validity predicate.
A previous entry for the name is removed FIRST (lines 54-56); only then
is `cron.AddJob` attempted, which on parse failure returns the error
without touching the entry table further — the removed entry is not
restored and `jobs` keeps the stale id. On success the new entry gets
the next id and `jobs[name]` is overwritten. -/
def addJob (parse : String → Bool) (st : SchedState) (job : Job) :
    SchedState × Option GoError :=
  let st1 :=
    match assocGet st.jobs job.name with
    | some eid => { st with cronEntries := cronRemove st.cronEntries eid }
    | none => st
  if parse job.cronExpr then
    let eid := st1.nextId
    ({ st1 with
        cronEntries := st1.cronEntries ++ [(eid, job)],
        nextId := eid + 1,
        jobs := assocPut st1.jobs job.name eid }, none)
  else
    (st1, some (.simple ("invalid cron expression: " ++ job.cronExpr)))

/-- `cronScheduler.RemoveJob` (lines 77-84). -/
def removeJob (st : SchedState) (name : String) : SchedState :=
  match assocGet st.jobs name with
  | some eid =>
      { st with
          cronEntries := cronRemove st.cronEntries eid,
          jobs := st.jobs.filter (fun p => p.1 ≠ name) }
  | none => st

/-- `cronScheduler.Stop` (lines 48-50): the body is empty — a comment
defers all stop logic to the context cancellation observed in `Start`. -/
def cronStop (st : SchedState) : SchedState := st

/-- What `cronScheduler.Start` (lines 37-46) does once the context it was
STARTED WITH is cancelled: `cron.Stop()` halts the wheel. -/
def schedOnCtxCancelled (st : SchedState) : SchedState :=
  { st with wheelRunning := false }

/-! ## Scheduler service supervisor loop (internal/usecase/job_service.go) -/

/-- `SchedularService.runSchedular` (lines 192-210) after a successful
job-repository `List`: add each job in order, returning early on the
first `AddJob` error (jobs already added stay added, the wheel is not
started); otherwise `go s.schedular.Start(ctx)` starts the wheel. -/
def addAllJobs (parse : String → Bool) (st : SchedState) :
    List Job → SchedState × Bool
  | [] => (st, true)
  | j :: t =>
      match addJob parse st j with
      | (st', none) => addAllJobs parse st' t
      | (st', some _) => (st', false)

/-- `runSchedular`, composed from `addAllJobs` and the wheel start. -/
def runSchedular (parse : String → Bool) (st : SchedState) (jobs : List Job) :
    SchedState :=
  let (st', ok) := addAllJobs parse st jobs
  if ok then { st' with wheelRunning := true } else st'

/-- Events the supervisor loop of `SchedularService.Start` (lines 181-187)
can wake up on while leader. -/
inductive LeaderEvent where
  | lostLeadership
  | rootCancelled
deriving DecidableEq, Repr

/-- A master node: its scheduler state, and whether the supervisor loop is
(re-)entering campaign rather than terminating. -/
structure MasterState where
  sched : SchedState
  campaigning : Bool
deriving DecidableEq, Repr

/-- One supervisor reaction (job_service.go lines 181-187): on
`lostLeaderShipCh` closing it calls `schedular.Stop()` (a no-op, see
`cronStop`) and loops back to campaign; on root-context cancellation it
calls `Stop()` and returns, and the wheel additionally halts because
`cronScheduler.Start` — blocked on that same root context — observes the
cancellation (`schedOnCtxCancelled`). -/
def supervisorStep (s : MasterState) : LeaderEvent → MasterState
  | .lostLeadership => ⟨cronStop s.sched, true⟩
  | .rootCancelled => ⟨schedOnCtxCancelled (cronStop s.sched), false⟩

/-! ## Master-side dispatcher (internal/master/dispatcher.go) -/

/-- `Dispatcher.domainToProto` (lines 100-132), parameterised by
`time.Duration.String()` for the backoff rendering. Fails only on an
executor type outside {"http", "shell"}. -/
def domainToProto (durStr : Nat → String) (job : Job) :
    Except GoError TaskRequestM :=
  let base : TaskRequestM :=
    { id := job.id, name := job.name, cronExpr := job.cronExpr,
      executorType := job.executorType, httpExecutor := none,
      shellExecutor := none, concurrencyPolicy := job.concurrencyPolicy,
      retryPolicy := job.retryPolicy.map (fun p => (p.maxRetries, durStr p.backoff)),
      createdAt := job.createdAt }
  if job.executorType = "http" then
    .ok { base with httpExecutor := some (job.executor.url, job.executor.method) }
  else if job.executorType = "shell" then
    .ok { base with shellExecutor := some job.executor.command }
  else
    .error (.simple ("unknown executor type: " ++ job.executorType))

/-- Outcome of one `Dispatcher.DispatchTask` call. `sent` records the one
RPC actually made, with the worker address and the RPC error (if any)
returned to the caller. -/
inductive DispatchResult where
  | noWorkers (msg : String)
  | clientError (e : GoError)
  | convError (e : GoError)
  | sent (addr : String) (rpcErr : Option GoError)
deriving DecidableEq, Repr

/-- The addresses a `DispatchResult` sent an RPC to (zero or one). -/
def DispatchResult.sentAddrs : DispatchResult → List String
  | .sent a _ => [a]
  | _ => []

/-- `Dispatcher.DispatchTask` (lines 38-71): snapshot the workers; if
empty, fail with the no-workers error; otherwise pick index
`rand.Intn(len)` (modelled as `pick % length`), get or create the gRPC
client for that address (`cache` are the cached addresses, `newClient`
the connection attempt), convert the job to a `TaskRequest`, and make
the one `ExecuteTask` RPC, returning its error unchanged. -/
def selectAddr (workers : List String) (pick : Nat) : String :=
  workers.getD (pick % workers.length) ""

def dispatchTask (durStr : Nat → String) (newClient : String → Option GoError)
    (cache : List String) (rpc : String → TaskRequestM → Option GoError)
    (pick : Nat) (workers : List String) (job : Job) : DispatchResult :=
  if workers.isEmpty then
    .noWorkers ("no available workers to dispatch job " ++ job.name)
  else
    match (if cache.contains (selectAddr workers pick) then none
           else newClient (selectAddr workers pick)) with
    | some e => .clientError e
    | none =>
        match domainToProto durStr job with
        | .error e => .convError e
        | .ok req => .sent (selectAddr workers pick) (rpc (selectAddr workers pick) req)

/-! ## Helper notions used by the theorems -/

/-- The records that the `Save` attempts of a trace carried. -/
def savedRecords (tr : List WEvent) : List ExecutionRecord :=
  tr.filterMap fun ev =>
    match ev with
    | .save r _ => some r
    | _ => none

/-- The scheduler entries registered for a given job name. -/
def entriesFor (st : SchedState) (name : String) : List (Nat × Job) :=
  st.cronEntries.filter fun p => p.2.name = name

/-- Well-formedness of a scheduler state: every live cron entry is the one
its job name maps to in the `jobs` table, and all allocated ids are below
the allocator. Holds for `schedInit` and is preserved by `addJob`. -/
def SchedWF (st : SchedState) : Prop :=
  (∀ p ∈ st.cronEntries, assocGet st.jobs p.2.name = some p.1) ∧
  (∀ p ∈ st.cronEntries, p.1 < st.nextId) ∧
  (∀ q ∈ st.jobs, q.2 < st.nextId)

/-! ## Small string facts -/

theorem strEqEmptyOfLengthZero (s : String) (h : s.length = 0) : s = "" := by
  cases s with
  | mk data =>
    cases data with
    | nil => rfl
    | cons c t => simp [String.length] at h

theorem strAppendNeEmpty (s t : String) (h : s ≠ "") : s ++ t ≠ "" := by
  intro hc
  apply h
  have hl := congrArg String.length hc
  rw [String.length_append] at hl
  exact strEqEmptyOfLengthZero s (by
    have : String.length "" = 0 := rfl
    omega)

/-! ## Claim theorems -/

/-- **C7.** For every shell job, the executor's returned output is exactly
`"[STDERR]:\n" ++ stderr ++ "\n[STDOUT]:\n" ++ stdout` when both stderr
and stdout are non-empty, exactly `"[STDERR]:\n" ++ stderr` when only
stderr is non-empty, and exactly stdout otherwise; and when the command
exits non-zero (so `cmd.Run` returns the exit-status error), `Execute`
returns this combined output together with a non-nil error describing the
failure. -/
theorem c7_shell_output_format (stdout stderr : String) (runErr : Option GoError) :
    (stderr ≠ "" → stdout ≠ "" →
      (shellExecute stdout stderr runErr).1 =
        "[STDERR]:\n" ++ stderr ++ "\n[STDOUT]:\n" ++ stdout) ∧
    (stderr ≠ "" → stdout = "" →
      (shellExecute stdout stderr runErr).1 = "[STDERR]:\n" ++ stderr) ∧
    (stderr = "" → (shellExecute stdout stderr runErr).1 = stdout) ∧
    (∀ c, runErr = some (exitStatusErr c) →
      (shellExecute stdout stderr runErr).1 = shellCombineOutput stdout stderr ∧
      (shellExecute stdout stderr runErr).2 =
        some (.wrap "shell command failed: " (exitStatusErr c))) := by
  refine ⟨?_, ?_, ?_, ?_⟩
  · intro h1 h2
    cases runErr <;> simp [shellExecute, shellCombineOutput, h1, h2]
  · intro h1 h2
    cases runErr <;> simp [shellExecute, shellCombineOutput, h1, h2]
  · intro h1
    cases runErr <;> simp [shellExecute, shellCombineOutput, h1]
  · intro c hc
    subst hc
    simp [shellExecute]

/-- Witness for C7 at stdout `"out"`, stderr `"err"`, exit status 1. -/
theorem c7_shell_output_format_witness :
    (shellExecute "out" "err" (some (exitStatusErr 1))).1 =
      "[STDERR]:\nerr\n[STDOUT]:\nout" ∧
    (shellExecute "out" "err" (some (exitStatusErr 1))).2 =
      some (.wrap "shell command failed: " (exitStatusErr 1)) :=
  ⟨(c7_shell_output_format "out" "err" (some (exitStatusErr 1))).1
      (by decide) (by decide),
    ((c7_shell_output_format "out" "err" (some (exitStatusErr 1))).2.2.2 1 rfl).2⟩

/-- A representative shell job used by the C2 scenario. -/
def sampleShellJob : Job :=
  ⟨"id1", "j1", "*/1 * * * * *", "shell", ⟨"", "", "echo hi"⟩, "Allow", none, 0, 0⟩

/-- **C2 (code bug).** A leader whose Schedule Engine is running receives
the leadership-lost signal: the supervisor calls `schedular.Stop()`
(whose body is empty) and re-enters campaign, but the cron wheel — started
with the ROOT context in `runSchedular` — keeps running, so the node keeps
dispatching jobs on schedule. Only root-context cancellation actually
stops the wheel. This contradicts the claim (and spec §4.4) that on
leadership loss the Schedule Engine is stopped. -/
theorem c2_leadership_loss_keeps_wheel_running :
    (runSchedular (fun _ => true) schedInit [sampleShellJob]).wheelRunning = true ∧
    (supervisorStep ⟨runSchedular (fun _ => true) schedInit [sampleShellJob], false⟩
        .lostLeadership).sched.wheelRunning = true ∧
    (supervisorStep ⟨runSchedular (fun _ => true) schedInit [sampleShellJob], false⟩
        .lostLeadership).campaigning = true ∧
    (supervisorStep ⟨runSchedular (fun _ => true) schedInit [sampleShellJob], false⟩
        .rootCancelled).sched.wheelRunning = false := by
  decide

/-- An http job whose name is 129 characters long and whose other fields
are valid. -/
def longNameJob : Job :=
  ⟨"", String.mk (List.replicate 129 'a'), "* * * * * *", "http",
    ⟨"http://example.com", "GET", ""⟩, "Allow", none, 0, 0⟩

set_option maxRecDepth 4096 in
/-- **C6 counterexample.** `Job.Validate` accepts a job whose name is 129
characters long: the claim's upper bound of 128 on the name length is not
checked by `Job.Validate` (it only rejects the empty name; the 1..128
bound lives solely in the HTTP DTO layer's `validate` tag). -/
theorem c6_counterexample :
    longNameJob.name.length = 129 ∧ jobValidate longNameJob = .ok longNameJob := by
  constructor
  · decide
  · decide

/-- **C6 (amended).** `Job.Validate` accepts a job only if: the name is
non-empty (no upper length bound is enforced here), the cron expression
is non-empty, an http job has a non-empty URL with an empty method
defaulted to "GET", a shell job has a non-empty command, and the
executor kind is `http` or `shell`; an empty concurrency policy is
defaulted to `Allow`; a job violating any of these checks (empty name,
unknown kind, missing URL or command) is rejected with an error. -/
theorem c6_validate_amended (j : Job) :
    (∀ j', jobValidate j = .ok j' →
      j.name ≠ "" ∧ j.cronExpr ≠ "" ∧
      (j.executorType = "http" ∨ j.executorType = "shell") ∧
      (j.executorType = "http" →
        j.executor.url ≠ "" ∧
        j'.executor.method =
          (if j.executor.method = "" then "GET" else j.executor.method)) ∧
      (j.executorType = "shell" → j.executor.command ≠ "" ∧ j'.executor = j.executor) ∧
      j'.concurrencyPolicy =
        (if j.concurrencyPolicy = "" then "Allow" else j.concurrencyPolicy) ∧
      j'.name = j.name) ∧
    (j.name = "" → jobValidate j = .error (.simple "job name cannot be empty")) ∧
    (j.executorType ≠ "http" → j.executorType ≠ "shell" → j.name ≠ "" → j.cronExpr ≠ "" →
      jobValidate j = .error (.simple ("invalid executor type: " ++ j.executorType))) ∧
    (j.executorType = "http" → j.executor.url = "" → j.name ≠ "" → j.cronExpr ≠ "" →
      jobValidate j = .error (.simple "executor URL cannot be empty for http job")) ∧
    (j.executorType = "shell" → j.executor.command = "" → j.name ≠ "" → j.cronExpr ≠ "" →
      jobValidate j = .error (.simple "executor command cannot be empty for shell job")) := by
  refine ⟨?_, ?_, ?_, ?_, ?_⟩
  · intro j' h
    unfold jobValidate at h
    split at h
    · exact absurd h (by simp)
    · split at h
      · exact absurd h (by simp)
      · split at h
        · split at h
          · exact absurd h (by simp)
          · simp only [Except.ok.injEq] at h
            subst h
            split <;> rename_i hm <;>
              simp_all
        · split at h
          · split at h
            · exact absurd h (by simp)
            · simp only [Except.ok.injEq] at h
              subst h
              simp_all
          · exact absurd h (by simp)
  · intro h
    simp [jobValidate, h]
  · intro h1 h2 h3 h4
    simp [jobValidate, h1, h2, h3, h4]
  · intro h1 h2 h3 h4
    simp [jobValidate, h1, h2, h3, h4]
  · intro h1 h2 h3 h4
    have hne : j.executorType ≠ "http" := by
      intro hc
      rw [hc] at h1
      exact absurd h1 (by decide)
    simp [jobValidate, h1, h2, h3, h4, hne]

/-- Witness for C6 (amended): a shell job with empty method and empty
concurrency policy is accepted with `Allow` defaulted, and the unknown
kind `"foo"` is rejected. -/
theorem c6_validate_amended_witness :
    (jobValidate ⟨"", "n", "* * * * * *", "shell", ⟨"", "", "c"⟩, "", none, 0, 0⟩
      = .ok ⟨"", "n", "* * * * * *", "shell", ⟨"", "", "c"⟩, "Allow", none, 0, 0⟩) ∧
    jobValidate ⟨"", "n", "* * * * * *", "foo", ⟨"", "", ""⟩, "", none, 0, 0⟩
      = .error (.simple "invalid executor type: foo") := by
  constructor
  · decide
  · exact (c6_validate_amended
        ⟨"", "n", "* * * * * *", "foo", ⟨"", "", ""⟩, "", none, 0, 0⟩).2.2.1
      (by decide) (by decide) (by decide) (by decide)

/-- Every error produced by the executor-switch of `protoToDomain` has a
non-empty message. -/
theorem protoExecPart_error_msg_ne (req : TaskRequestM) (e : GoError)
    (h : protoExecPart req = .error e) : e.msg ≠ "" := by
  unfold protoExecPart at h
  split at h
  · cases hh : req.httpExecutor with
    | none =>
        rw [hh] at h
        simp only [Except.error.injEq] at h
        subst h
        decide
    | some p =>
        rw [hh] at h
        cases p
        simp at h
  · split at h
    · cases hh : req.shellExecutor with
      | none =>
          rw [hh] at h
          simp only [Except.error.injEq] at h
          subst h
          decide
      | some c =>
          rw [hh] at h
          simp at h
    · simp only [Except.error.injEq] at h
      subst h
      exact strAppendNeEmpty "unknown executor type: " req.executorType (by decide)

/-- Every error produced by `protoToDomain` has a non-empty message. -/
theorem protoToDomain_error_msg_ne (parseDur : String → Except GoError Nat)
    (req : TaskRequestM) (e : GoError)
    (h : protoToDomain parseDur req = .error e) : e.msg ≠ "" := by
  unfold protoToDomain at h
  cases he : protoExecPart req with
  | error e1 =>
      rw [he] at h
      simp only [Except.error.injEq] at h
      subst h
      exact protoExecPart_error_msg_ne req e1 he
  | ok exec =>
      rw [he] at h
      cases hr : protoRetryPart parseDur req with
      | error e2 =>
          rw [hr] at h
          simp only [Except.error.injEq] at h
          subst h
          unfold protoRetryPart at hr
          split at hr
          · simp at hr
          · split at hr
            · simp only [Except.error.injEq] at hr
              subst hr
              exact strAppendNeEmpty "invalid backoff duration: " _ (by decide)
            · simp at hr
      | ok pol =>
          rw [hr] at h
          simp at h

/-- **C5.** For every incoming `TaskRequest`, the worker's `ExecuteTask`
replies synchronously: on a parse failure the reply carries only a
non-empty `error_message` and no execution is started (the background
trace is empty); otherwise the reply carries only the freshly allocated
`execution_id` and the executor runs in a background task — the reply is
the same for every execution environment, so the RPC return never waits
for the executor; `execution_id` and `error_message` are never both
set. -/
theorem c5_execute_task_reply (parseDur : String → Except GoError Nat)
    (freshId : String) (registry registry' : List String) (env env' : RunEnv)
    (workerID workerID' : String) (t0 t1 t0' t1' : Nat) (req : TaskRequestM) :
    (∀ e, protoToDomain parseDur req = .error e →
      executeTask parseDur freshId registry env workerID t0 t1 req = (⟨"", e.msg⟩, []) ∧
      e.msg ≠ "") ∧
    (∀ job, protoToDomain parseDur req = .ok job →
      executeTask parseDur freshId registry env workerID t0 t1 req =
        (⟨freshId, ""⟩, (runJob registry env job freshId workerID t0 t1).1)) ∧
    ¬((executeTask parseDur freshId registry env workerID t0 t1 req).1.executionId ≠ "" ∧
      (executeTask parseDur freshId registry env workerID t0 t1 req).1.errorMessage ≠ "") ∧
    (executeTask parseDur freshId registry env workerID t0 t1 req).1 =
      (executeTask parseDur freshId registry' env' workerID' t0' t1' req).1 := by
  refine ⟨?_, ?_, ?_, ?_⟩
  · intro e he
    refine ⟨?_, protoToDomain_error_msg_ne parseDur req e he⟩
    unfold executeTask
    rw [he]
  · intro job hj
    unfold executeTask
    rw [hj]
  · unfold executeTask
    cases h : protoToDomain parseDur req with
    | error e => simp
    | ok job => simp
  · unfold executeTask
    cases h : protoToDomain parseDur req with
    | error e => rfl
    | ok job => rfl

/-- Witness for C5: a request with executor type `"bogus"` is refused with
only an error message and an empty trace; a well-formed shell request is
replied to with the fresh execution id. -/
theorem c5_execute_task_reply_witness :
    executeTask (fun _ => .ok 0) "id-1" ["shell"]
        ⟨true, none, true, .ok "hi"⟩ "w1" 1 2
        ⟨"", "j", "* * * * * *", "bogus", none, none, "Allow", none, 0⟩ =
      (⟨"", "unknown executor type: bogus"⟩, []) ∧
    (executeTask (fun _ => .ok 0) "id-2" ["shell"]
        ⟨true, none, true, .ok "hi"⟩ "w1" 1 2
        ⟨"", "j", "* * * * * *", "shell", none, some "echo hi", "Allow", none, 0⟩).1 =
      ⟨"id-2", ""⟩ := by
  constructor
  · exact ((c5_execute_task_reply (fun _ => .ok 0) "id-1" ["shell"] ["shell"]
        ⟨true, none, true, .ok "hi"⟩ ⟨true, none, true, .ok "hi"⟩ "w1" "w1" 1 2 1 2
        ⟨"", "j", "* * * * * *", "bogus", none, none, "Allow", none, 0⟩).1
      (.simple "unknown executor type: bogus") (by decide)).1
  · have := (c5_execute_task_reply (fun _ => .ok 0) "id-2" ["shell"] ["shell"]
        ⟨true, none, true, .ok "hi"⟩ ⟨true, none, true, .ok "hi"⟩ "w1" "w1" 1 2 1 2
        ⟨"", "j", "* * * * * *", "shell", none, some "echo hi", "Allow", none, 0⟩).2.1
        ⟨"", "j", "* * * * * *", "shell", ⟨"", "", "echo hi"⟩, "Allow", none, 0, 0⟩
        (by decide)
    rw [this]

/-- A job whose executor kind is the unknown string `"foo"`. -/
def fooJob : Job :=
  ⟨"id2", "j2", "* * * * * *", "foo", ⟨"", "", ""⟩, "Allow", none, 0, 0⟩

/-- **C9 counterexample.** With a non-empty worker snapshot `["w1"]` and a
job whose executor kind is `"foo"`, `DispatchTask` selects the worker and
creates the client, but `domainToProto` fails, so no RPC is sent at all —
contradicting the claim that whenever the snapshot is non-empty the task
is sent to the selected address. -/
theorem c9_counterexample :
    dispatchTask (fun _ => "") (fun _ => none) [] (fun _ _ => none) 0 ["w1"] fooJob =
      .convError (.simple "unknown executor type: foo") ∧
    (dispatchTask (fun _ => "") (fun _ => none) [] (fun _ _ => none) 0 ["w1"] fooJob).sentAddrs
      = [] ∧
    (["w1"] : List String) ≠ [] := by
  decide

/-- **C9 (amended).** For every dispatch call: when the snapshot of live
workers is empty, `DispatchTask` fails with the no-workers error and no
RPC is sent; at most one RPC is ever sent; when the snapshot is non-empty,
exactly one address from the snapshot is selected, and provided the gRPC
client is obtained and the request conversion succeeds, the task is sent
to that address and any RPC error is returned to the caller unchanged —
the dispatcher itself never retries the send. -/
theorem c9_dispatch_amended (durStr : Nat → String)
    (newClient : String → Option GoError) (cache : List String)
    (rpc : String → TaskRequestM → Option GoError) (pick : Nat)
    (workers : List String) (job : Job) :
    (workers = [] →
      dispatchTask durStr newClient cache rpc pick workers job =
        .noWorkers ("no available workers to dispatch job " ++ job.name)) ∧
    (dispatchTask durStr newClient cache rpc pick workers job).sentAddrs.length ≤ 1 ∧
    (workers ≠ [] →
      selectAddr workers pick ∈ workers ∧
      ((if cache.contains (selectAddr workers pick) then none
        else newClient (selectAddr workers pick)) = none →
        ∀ req, domainToProto durStr job = .ok req →
          dispatchTask durStr newClient cache rpc pick workers job =
            .sent (selectAddr workers pick) (rpc (selectAddr workers pick) req))) := by
  refine ⟨?_, ?_, ?_⟩
  · intro h
    subst h
    rfl
  · cases hres : dispatchTask durStr newClient cache rpc pick workers job <;>
      simp [DispatchResult.sentAddrs]
  · intro hne
    have hlen : 0 < workers.length := List.length_pos.mpr hne
    have hlt : pick % workers.length < workers.length := Nat.mod_lt _ hlen
    constructor
    · unfold selectAddr
      rw [List.getD_eq_getElem workers "" hlt]
      exact List.getElem_mem hlt
    · intro hclient req hreq
      unfold dispatchTask
      rw [if_neg (by simp [List.isEmpty_iff, hne])]
      rw [hclient, hreq]

/-- Witness for C9 (amended): concrete three-way instantiation — empty
snapshot fails with the no-workers error; snapshot `["w1", "w2"]` with
`pick = 3` selects `"w2"` and returns the stubbed RPC error unchanged. -/
theorem c9_dispatch_amended_witness :
    dispatchTask (fun _ => "") (fun _ => none) []
        (fun _ _ => some (.simple "rpc boom")) 3 [] sampleShellJob =
      .noWorkers "no available workers to dispatch job j1" ∧
    dispatchTask (fun _ => "") (fun _ => none) []
        (fun _ _ => some (.simple "rpc boom")) 3 ["w1", "w2"] sampleShellJob =
      .sent "w2" (some (.simple "rpc boom")) := by
  constructor
  · exact (c9_dispatch_amended (fun _ => "") (fun _ => none) []
      (fun _ _ => some (.simple "rpc boom")) 3 [] sampleShellJob).1 rfl
  · exact ((c9_dispatch_amended (fun _ => "") (fun _ => none) []
      (fun _ _ => some (.simple "rpc boom")) 3 ["w1", "w2"] sampleShellJob).2.2
      (by decide)).2 (by decide)
      ⟨"id1", "j1", "*/1 * * * * *", "shell", none, some "echo hi", "Allow", none, 0⟩
      (by decide)

/-- **C1.** For every job with concurrency `Forbid`, the supervisor
attempts the per-job lock with a 2-second deadline (trace position 1,
right after the initial save and before any executor invocation); when
`locker.Lock` returns an error, the executor is never invoked and the
final record has status failed and error
`"skipped execution: " ++ err.Error()` — for `ErrLockNotAcquired`
("lock not acquired", the symbolic `LockNotAcquired` of the spec) this is
the literal `"skipped execution: lock not acquired"`; when the lock is
acquired, `Unlock` runs on every exit path and the final record is still
persisted last. -/
theorem c1_forbid_lock_gate (registry : List String) (env : RunEnv) (job : Job)
    (eid wid : String) (t0 t1 : Nat)
    (hF : job.concurrencyPolicy = "Forbid") :
    (runJob registry env job eid wid t0 t1).1.get? 1 =
      some (.lockAttempt job.name 2) ∧
    (∀ e, env.lockResult = some e →
      WEvent.execCall job.name ∉ (runJob registry env job eid wid t0 t1).1 ∧
      (runJob registry env job eid wid t0 t1).2.status = .failed ∧
      (runJob registry env job eid wid t0 t1).2.error =
        "skipped execution: " ++ e.msg) ∧
    (env.lockResult = some errLockNotAcquired →
      (runJob registry env job eid wid t0 t1).2.error =
        "skipped execution: lock not acquired") ∧
    (env.lockResult = none →
      WEvent.unlock job.name ∈ (runJob registry env job eid wid t0 t1).1 ∧
      (runJob registry env job eid wid t0 t1).1.getLast? =
        some (.save (runJob registry env job eid wid t0 t1).2 env.finalSaveOk)) := by
  obtain ⟨initOk, lockR, finOk, outc⟩ := env
  rcases lockR with _ | e
  · rcases outc with o | ⟨e2, o⟩ | m <;>
      by_cases hc : job.executorType ∈ registry <;>
        simp [runJob, runJobFinish, hF, hc, errLockNotAcquired]
  · simp [runJob, runJobFinish, hF, errLockNotAcquired, GoError.msg]
    intro h
    subst h
    rfl

/-- Witness for C1: a Forbid shell job. With the lock refused as
`ErrLockNotAcquired` the record is failed with the skip error and no
executor call appears in the trace; with the lock acquired the trace
contains the unlock. -/
theorem c1_forbid_lock_gate_witness :
    (WEvent.execCall "j1" ∉
      (runJob ["shell"] ⟨true, some errLockNotAcquired, true, .ok "hi"⟩
        { sampleShellJob with concurrencyPolicy := "Forbid" } "e1" "w1" 1 2).1 ∧
     (runJob ["shell"] ⟨true, some errLockNotAcquired, true, .ok "hi"⟩
        { sampleShellJob with concurrencyPolicy := "Forbid" } "e1" "w1" 1 2).2.status
        = .failed ∧
     (runJob ["shell"] ⟨true, some errLockNotAcquired, true, .ok "hi"⟩
        { sampleShellJob with concurrencyPolicy := "Forbid" } "e1" "w1" 1 2).2.error
        = "skipped execution: lock not acquired") ∧
    WEvent.unlock "j1" ∈
      (runJob ["shell"] ⟨true, none, true, .ok "hi"⟩
        { sampleShellJob with concurrencyPolicy := "Forbid" } "e1" "w1" 1 2).1 := by
  constructor
  · have h := c1_forbid_lock_gate ["shell"]
      ⟨true, some errLockNotAcquired, true, .ok "hi"⟩
      { sampleShellJob with concurrencyPolicy := "Forbid" } "e1" "w1" 1 2 rfl
    have h2 := h.2.1 errLockNotAcquired rfl
    exact ⟨h2.1, h2.2.1, h.2.2.1 rfl⟩
  · exact ((c1_forbid_lock_gate ["shell"] ⟨true, none, true, .ok "hi"⟩
      { sampleShellJob with concurrencyPolicy := "Forbid" } "e1" "w1" 1 2 rfl).2.2.2
      rfl).1

/-- **C3.** For every execution record produced by the worker's `runJob`
(under a monotone positive clock, `0 < t0 ≤ t1`): the trace starts with
the persistence of the running record with zero `end_time`, before any
executor invocation; the two `Save` attempts carry exactly the initial
running record and the final record; the final record's status is in
{success, failed}, its `end_time` is `t1 ≥ start_time` and non-zero and
is assigned nowhere else; a panic yields status failed with error
beginning `"panic: "`; the final save is the last trace event on every
exit path; and an initial-save failure changes nothing but that save's
flag — execution proceeds identically. -/
theorem c3_record_lifecycle (registry : List String) (env : RunEnv) (job : Job)
    (eid wid : String) (t0 t1 : Nat) (h0 : 0 < t0) (h01 : t0 ≤ t1) :
    (runJob registry env job eid wid t0 t1).1.head? =
      some (.save ⟨eid, job.name, t0, 0, .running, "", "", 0, wid⟩ env.initialSaveOk) ∧
    savedRecords (runJob registry env job eid wid t0 t1).1 =
      [⟨eid, job.name, t0, 0, .running, "", "", 0, wid⟩,
        (runJob registry env job eid wid t0 t1).2] ∧
    (runJob registry env job eid wid t0 t1).2.status ≠ .running ∧
    (runJob registry env job eid wid t0 t1).2.startTime = t0 ∧
    (runJob registry env job eid wid t0 t1).2.endTime = t1 ∧
    (runJob registry env job eid wid t0 t1).2.startTime ≤
      (runJob registry env job eid wid t0 t1).2.endTime ∧
    0 < (runJob registry env job eid wid t0 t1).2.endTime ∧
    (∀ m, env.outcome = .panicked m →
      WEvent.execCall job.name ∈ (runJob registry env job eid wid t0 t1).1 →
      (runJob registry env job eid wid t0 t1).2.status = .failed ∧
      (runJob registry env job eid wid t0 t1).2.error = "panic: " ++ m) ∧
    (runJob registry env job eid wid t0 t1).1.getLast? =
      some (.save (runJob registry env job eid wid t0 t1).2 env.finalSaveOk) ∧
    (∀ b, (runJob registry { env with initialSaveOk := b } job eid wid t0 t1).1.tail =
        (runJob registry env job eid wid t0 t1).1.tail ∧
      (runJob registry { env with initialSaveOk := b } job eid wid t0 t1).2 =
        (runJob registry env job eid wid t0 t1).2) := by
  obtain ⟨initOk, lockR, finOk, outc⟩ := env
  by_cases hp : job.concurrencyPolicy = "Forbid" <;>
    rcases lockR with _ | e <;>
      rcases outc with o | ⟨e2, o⟩ | m <;>
        by_cases hc : job.executorType ∈ registry <;>
          simp [runJob, runJobFinish, savedRecords, hp, hc] <;>
            omega

/-- Witness for C3: an Allow shell job whose executor panics, with the
initial save failing, at clock readings 3 and 5. -/
theorem c3_record_lifecycle_witness :
    savedRecords (runJob ["shell"] ⟨false, none, true, .panicked "boom"⟩
        sampleShellJob "e1" "w1" 3 5).1 =
      [⟨"e1", "j1", 3, 0, .running, "", "", 0, "w1"⟩,
        ⟨"e1", "j1", 3, 5, .failed, "", "panic: boom", 0, "w1"⟩] ∧
    (runJob ["shell"] ⟨false, none, true, .panicked "boom"⟩
        sampleShellJob "e1" "w1" 3 5).2.status = .failed ∧
    (runJob ["shell"] ⟨false, none, true, .panicked "boom"⟩
        sampleShellJob "e1" "w1" 3 5).2.error = "panic: boom" := by
  have h := c3_record_lifecycle ["shell"] ⟨false, none, true, .panicked "boom"⟩
    sampleShellJob "e1" "w1" 3 5 (by decide) (by decide)
  have hp := h.2.2.2.2.2.2.2.1 "boom" rfl (by decide)
  refine ⟨?_, hp.1, hp.2⟩
  have hs := h.2.1
  rw [hs]
  have hfin : (runJob ["shell"] ⟨false, none, true, .panicked "boom"⟩
      sampleShellJob "e1" "w1" 3 5).2 =
      ⟨"e1", "j1", 3, 5, .failed, "", "panic: boom", 0, "w1"⟩ := by decide
  rw [hfin]
  rfl

/-- Invariant of the retry loop of `httpTaskExecutor.Execute`: for
positive fuel, the loop makes between 1 and `fuel` attempts and sleeps
exactly between consecutive attempts; every attempt before the last
failed retriably; and the result is determined by the last attempt — its
body and no error on success, its body and the non-retriable wrap on a
non-retriable error, or the empty outer output and the exhaustion wrap of
the last error when it too was retriable. -/
theorem httpRetryLoop_spec (att : Nat → HttpAttempt) (maxR : Int) :
    ∀ (fuel i : Nat) (lastErr : GoError) (r : HttpResult),
      0 < fuel → httpRetryLoop att maxR fuel i lastErr = r →
      (1 ≤ r.attempts ∧ r.attempts ≤ fuel ∧ r.sleeps + 1 = r.attempts) ∧
      (∀ k, k + 1 < r.attempts →
        ∃ e, (doExecute (att (i + k))).2 = some e ∧ isRetriableErr e = true) ∧
      (∀ e, (doExecute (att (i + r.attempts - 1))).2 = some e →
        (isRetriableErr e = true →
          r.attempts = fuel ∧ r.output = "" ∧
          r.err = some (.wrap ("job failed after " ++ toString maxR ++ " retries: ") e)) ∧
        (isRetriableErr e = false →
          r.output = (doExecute (att (i + r.attempts - 1))).1 ∧
          r.err = some (.wrap
            ("non-retriable error on attempt " ++ toString (i + r.attempts) ++ ": ") e))) ∧
      ((doExecute (att (i + r.attempts - 1))).2 = none →
        r.output = (doExecute (att (i + r.attempts - 1))).1 ∧ r.err = none) := by
  intro fuel
  induction fuel with
  | zero => intro i lastErr r h; exact absurd h (by omega)
  | succ n ih =>
      intro i lastErr r hpos hr
      rcases hd : doExecute (att i) with ⟨out0, e0⟩
      rcases e0 with _ | err
      · -- the attempt at index i succeeded
        have hre : r = ⟨out0, none, 1, 0⟩ := by
          rw [← hr]
          simp [httpRetryLoop, hd]
        subst hre
        dsimp only
        rw [show i + 1 - 1 = i from by omega]
        refine ⟨⟨by omega, by omega, by omega⟩, ?_, ?_, ?_⟩
        · intro k hk
          exact absurd hk (by omega)
        · intro e he
          rw [hd] at he
          simp at he
        · intro _
          rw [hd]
          exact ⟨rfl, rfl⟩
      · by_cases hret : isRetriableErr err = true
        · rcases Nat.eq_zero_or_pos n with hn | hn
          · -- i was the final admissible attempt: break, return exhausted
            subst hn
            have hre : r = ⟨"", some (.wrap
                ("job failed after " ++ toString maxR ++ " retries: ") err), 1, 0⟩ := by
              rw [← hr]
              simp [httpRetryLoop, hd, hret]
            subst hre
            dsimp only
            rw [show i + 1 - 1 = i from by omega]
            refine ⟨⟨by omega, by omega, by omega⟩, ?_, ?_, ?_⟩
            · intro k hk
              exact absurd hk (by omega)
            · intro e he
              rw [hd] at he
              simp at he
              subst he
              constructor
              · intro _
                exact ⟨rfl, rfl, rfl⟩
              · intro hcontra
                rw [hret] at hcontra
                exact absurd hcontra (by decide)
            · intro he
              rw [hd] at he
              simp at he
          · -- retriable failure with fuel to spare: sleep and loop
            have hre : r = ⟨(httpRetryLoop att maxR n (i + 1) err).output,
                (httpRetryLoop att maxR n (i + 1) err).err,
                (httpRetryLoop att maxR n (i + 1) err).attempts + 1,
                (httpRetryLoop att maxR n (i + 1) err).sleeps + 1⟩ := by
              rw [← hr]
              simp [httpRetryLoop, hd, hret, Nat.pos_iff_ne_zero.mp hn]
            have IH := ih (i + 1) err (httpRetryLoop att maxR n (i + 1) err) hn rfl
            obtain ⟨⟨ih1, ih2, ih3⟩, ihPre, ihSome, ihNone⟩ := IH
            subst hre
            dsimp only
            rw [show i + ((httpRetryLoop att maxR n (i + 1) err).attempts + 1) - 1 =
                (i + 1) + (httpRetryLoop att maxR n (i + 1) err).attempts - 1 from by omega]
            refine ⟨⟨by omega, by omega, by omega⟩, ?_, ?_, ?_⟩
            · intro k hk
              cases k with
              | zero =>
                  refine ⟨err, ?_, hret⟩
                  rw [Nat.add_zero, hd]
              | succ k' =>
                  have := ihPre k' (by omega)
                  rwa [show (i + 1) + k' = i + (k' + 1) from by omega] at this
            · intro e he
              have := ihSome e he
              constructor
              · intro ht
                have h3 := this.1 ht
                exact ⟨by omega, h3.2.1, h3.2.2⟩
              · intro ht
                have h3 := this.2 ht
                refine ⟨h3.1, ?_⟩
                rw [show i + ((httpRetryLoop att maxR n (i + 1) err).attempts + 1) =
                      (i + 1) + (httpRetryLoop att maxR n (i + 1) err).attempts
                      from by omega]
                exact h3.2
            · intro he
              exact ihNone he
        · -- non-retriable failure: stop immediately
          have hret' : isRetriableErr err = false := by
            simpa using hret
          have hre : r = ⟨out0, some (.wrap
              ("non-retriable error on attempt " ++ toString (i + 1) ++ ": ") err), 1, 0⟩ := by
            rw [← hr]
            simp [httpRetryLoop, hd, hret']
          subst hre
          dsimp only
          rw [show i + 1 - 1 = i from by omega]
          refine ⟨⟨by omega, by omega, by omega⟩, ?_, ?_, ?_⟩
          · intro k hk
            exact absurd hk (by omega)
          · intro e he
            rw [hd] at he
            simp at he
            subst he
            constructor
            · intro hcontra
              rw [hret'] at hcontra
              exact absurd hcontra (by decide)
            · intro _
              rw [hd]
              exact ⟨rfl, rfl⟩
          · intro he
            rw [hd] at he
            simp at he

/-- An http job with `retry_policy = {max_retries: 1, backoff: 0}`. -/
def retryOnceJob : Job :=
  ⟨"id3", "j3", "* * * * * *", "http", ⟨"http://x", "GET", ""⟩, "Allow",
    some ⟨1, 0⟩, 0, 0⟩

/-- Every attempt meets a 404 whose server-supplied status line is
`"404 5xx"` (the reason phrase is server-controlled text). -/
def att404With5xxText : Nat → HttpAttempt := fun _ => .resp 404 "404 5xx" "b"

/-- **C4 counterexample.** Retriability is decided by
`strings.Contains(err.Error(), "5xx")`, and the 4xx error message embeds
the server-controlled `resp.Status`. With status 404 and status line
`"404 5xx"`, the claim says the error is non-retriable and `Execute`
stops after one attempt returning that error with the attempt's body;
the code instead treats it as retriable, makes 2 attempts (sleeping
once), and returns the exhaustion error with empty output. -/
theorem c4_counterexample :
    httpExecute retryOnceJob att404With5xxText =
      ⟨"", some (.wrap "job failed after 1 retries: "
        (.simple "http request returned 4xx client error: 404 5xx")), 2, 1⟩ := by
  decide

/-- **C4 (amended).** For every HTTP job: if `retry_policy` is absent or
`max_retries = 0`, `Execute` performs exactly one attempt and returns its
result; otherwise (for `max_retries > 0`) it performs at most
`1 + max_retries` attempts, sleeping backoff exactly between consecutive
attempts; an attempt's error is retriable iff it is a network timeout or
its MESSAGE contains the substring `"5xx"` (which holds for every
status ≥ 500 and can also hold for a 4xx whose server-supplied status
text contains `"5xx"`); every attempt before the last failed retriably;
on a non-retriable error `Execute` stops immediately and returns that
error together with the response body read on that attempt; when the
last attempt also fails retriably, all admissible attempts were used and
`Execute` returns the error wrapping the last attempt's error. -/
theorem c4_http_retry_amended (job : Job) (att : Nat → HttpAttempt) :
    (job.retryPolicy = none →
      httpExecute job att = ⟨(doExecute (att 0)).1, (doExecute (att 0)).2, 1, 0⟩) ∧
    (∀ pol, job.retryPolicy = some pol → pol.maxRetries = 0 →
      httpExecute job att = ⟨(doExecute (att 0)).1, (doExecute (att 0)).2, 1, 0⟩) ∧
    (∀ pol, job.retryPolicy = some pol → 0 < pol.maxRetries →
      (1 ≤ (httpExecute job att).attempts ∧
       (httpExecute job att).attempts ≤ (pol.maxRetries + 1).toNat ∧
       (httpExecute job att).sleeps + 1 = (httpExecute job att).attempts) ∧
      (∀ k, k + 1 < (httpExecute job att).attempts →
        ∃ e, (doExecute (att k)).2 = some e ∧ isRetriableErr e = true) ∧
      (∀ e, (doExecute (att ((httpExecute job att).attempts - 1))).2 = some e →
        (isRetriableErr e = true →
          (httpExecute job att).attempts = (pol.maxRetries + 1).toNat ∧
          (httpExecute job att).output = "" ∧
          (httpExecute job att).err = some (.wrap
            ("job failed after " ++ toString pol.maxRetries ++ " retries: ") e)) ∧
        (isRetriableErr e = false →
          (httpExecute job att).output =
            (doExecute (att ((httpExecute job att).attempts - 1))).1 ∧
          (httpExecute job att).err = some (.wrap
            ("non-retriable error on attempt "
              ++ toString (httpExecute job att).attempts ++ ": ") e))) ∧
      ((doExecute (att ((httpExecute job att).attempts - 1))).2 = none →
        (httpExecute job att).output =
          (doExecute (att ((httpExecute job att).attempts - 1))).1 ∧
        (httpExecute job att).err = none)) := by
  refine ⟨?_, ?_, ?_⟩
  · intro h
    rcases hd : doExecute (att 0) with ⟨o0, e0⟩
    simp [httpExecute, h, hd]
  · intro pol hpol hz
    rcases hd : doExecute (att 0) with ⟨o0, e0⟩
    simp [httpExecute, hpol, hz, hd]
  · intro pol hpol hmax
    have hz : ¬pol.maxRetries = 0 := by omega
    have hfuel : 0 < (pol.maxRetries + 1).toNat := by omega
    have hx : httpExecute job att =
        httpRetryLoop att pol.maxRetries (pol.maxRetries + 1).toNat 0 nilErr := by
      simp [httpExecute, hpol, hz]
    rw [hx]
    have spec := httpRetryLoop_spec att pol.maxRetries (pol.maxRetries + 1).toNat 0
      nilErr (httpRetryLoop att pol.maxRetries (pol.maxRetries + 1).toNat 0 nilErr)
      hfuel rfl
    simpa only [Nat.zero_add] using spec

/-- Witness for C4 (amended): a single genuine 404 (status text
`"404 Not Found"`) under `max_retries = 1` stops after one attempt with
the attempt's body and the non-retriable wrap. -/
theorem c4_http_retry_amended_witness :
    (httpExecute retryOnceJob (fun _ => HttpAttempt.resp 404 "404 Not Found" "nf")).output =
      (doExecute ((fun _ => HttpAttempt.resp 404 "404 Not Found" "nf")
          ((httpExecute retryOnceJob
              (fun _ => HttpAttempt.resp 404 "404 Not Found" "nf")).attempts - 1))).1 ∧
    (httpExecute retryOnceJob (fun _ => HttpAttempt.resp 404 "404 Not Found" "nf")).err =
      some (.wrap ("non-retriable error on attempt "
          ++ toString (httpExecute retryOnceJob
              (fun _ => HttpAttempt.resp 404 "404 Not Found" "nf")).attempts ++ ": ")
        (.simple "http request returned 4xx client error: 404 Not Found")) :=
  (((c4_http_retry_amended retryOnceJob
      (fun _ => .resp 404 "404 Not Found" "nf")).2.2 ⟨1, 0⟩ rfl (by decide)).2.2.1
      (.simple "http request returned 4xx client error: 404 Not Found")
      (by decide)).2 (by decide)

/-- An http job with `retry_policy = {max_retries: 2, backoff: 7}`. -/
def retryTwiceJob : Job :=
  ⟨"id4", "j4", "* * * * * *", "http", ⟨"http://y", "GET", ""⟩, "Allow",
    some ⟨2, 7⟩, 0, 0⟩

/-- Every attempt meets a 500 with body `"oops"`. -/
def att500 : Nat → HttpAttempt :=
  fun _ => .resp 500 "500 Internal Server Error" "oops"

/-- **C10.** For every HTTP job whose retry policy has `max_retries > 0`
and whose attempts all fail with retriable errors, `Execute` returns the
empty string as its output — the response body captured on the final
attempt is not included (the loop-local `output` shadows the outer
variable that the exhaustion return reads) — together with the error
wrapping the last attempt's error. -/
theorem c10_exhaustion_empty_output (job : Job) (pol : RetryPolicy)
    (att : Nat → HttpAttempt)
    (hpol : job.retryPolicy = some pol) (hmax : 0 < pol.maxRetries)
    (hfail : ∀ k, ∃ e, (doExecute (att k)).2 = some e ∧ isRetriableErr e = true) :
    (httpExecute job att).output = "" ∧
    ∀ e, (doExecute (att ((httpExecute job att).attempts - 1))).2 = some e →
      (httpExecute job att).err =
        some (.wrap ("job failed after " ++ toString pol.maxRetries ++ " retries: ") e) := by
  have hz : ¬pol.maxRetries = 0 := by omega
  have hfuel : 0 < (pol.maxRetries + 1).toNat := by omega
  have hx : httpExecute job att =
      httpRetryLoop att pol.maxRetries (pol.maxRetries + 1).toNat 0 nilErr := by
    simp [httpExecute, hpol, hz]
  rw [hx]
  have spec := httpRetryLoop_spec att pol.maxRetries (pol.maxRetries + 1).toNat 0
    nilErr (httpRetryLoop att pol.maxRetries (pol.maxRetries + 1).toNat 0 nilErr)
    hfuel rfl
  simp only [Nat.zero_add] at spec
  obtain ⟨bounds, pre, hsome, hnone⟩ := spec
  obtain ⟨e, he, hre⟩ := hfail
    ((httpRetryLoop att pol.maxRetries (pol.maxRetries + 1).toNat 0 nilErr).attempts - 1)
  have h2 := (hsome e he).1 hre
  refine ⟨h2.2.1, ?_⟩
  intro e' he'
  have : e' = e := by
    rw [he] at he'
    exact (Option.some.injEq e e').mp he' |>.symm ▸ rfl
  subst this
  exact h2.2.2

/-- Witness for C10: two retries against a constant 500 whose body is
`"oops"` — the returned output is empty nonetheless. -/
theorem c10_exhaustion_empty_output_witness :
    (httpExecute retryTwiceJob att500).output = "" ∧
    (httpExecute retryTwiceJob att500).err =
      some (.wrap "job failed after 2 retries: "
        (.simple "http request returned 5xx server error: 500 Internal Server Error")) := by
  have h := c10_exhaustion_empty_output retryTwiceJob ⟨2, 7⟩ att500 rfl (by decide)
    (fun k => ⟨.simple "http request returned 5xx server error: 500 Internal Server Error",
      rfl, by decide⟩)
  refine ⟨h.1, ?_⟩
  have h2 := h.2 (.simple "http request returned 5xx server error: 500 Internal Server Error")
    (by decide)
  rw [h2]
  decide

/-! ## C8: scheduler entry-table facts -/

theorem assocGet_put_self (m : List (String × Nat)) (k : String) (v : Nat) :
    assocGet (assocPut m k v) k = some v := by
  induction m with
  | nil => simp [assocPut, assocGet]
  | cons p t ihh =>
      obtain ⟨k', v'⟩ := p
      by_cases h : k' = k
      · subst h
        simp [assocPut, assocGet]
      · simp [assocPut, assocGet, h, ihh]

theorem assocGet_put_ne (m : List (String × Nat)) (k k' : String) (v : Nat)
    (h : k' ≠ k) : assocGet (assocPut m k v) k' = assocGet m k' := by
  have h' : ¬k = k' := fun hc => h hc.symm
  induction m with
  | nil => simp [assocPut, assocGet, h']
  | cons p t ihh =>
      obtain ⟨k0, v0⟩ := p
      by_cases h0 : k0 = k
      · subst h0
        simp [assocPut, assocGet, h']
      · by_cases h1 : k0 = k'
        · subst h1
          simp [assocPut, assocGet, h0]
        · simp [assocPut, assocGet, h0, h1, ihh]

theorem mem_assocPut (m : List (String × Nat)) (k : String) (v : Nat)
    (q : String × Nat) (h : q ∈ assocPut m k v) : q = (k, v) ∨ q ∈ m := by
  induction m with
  | nil =>
      simp [assocPut] at h
      exact Or.inl h
  | cons p t ihh =>
      obtain ⟨k0, v0⟩ := p
      by_cases h0 : k0 = k
      · subst h0
        simp [assocPut] at h
        rcases h with h | h
        · exact Or.inl (by simp [h])
        · exact Or.inr (List.mem_cons_of_mem _ h)
      · simp [assocPut, h0] at h
        rcases h with h | h
        · exact Or.inr (by simp [h])
        · rcases ihh h with h1 | h1
          · exact Or.inl h1
          · exact Or.inr (List.mem_cons_of_mem _ h1)

/-- After the remove-before-parse step of `AddJob`, no entry for the
incoming job's name survives (well-formedness ties every such entry to
the one id the `jobs` table holds). -/
theorem addJob_pre_filter (st : SchedState) (job : Job) (hwf : SchedWF st) :
    ∀ p, p ∈ (match assocGet st.jobs job.name with
        | some eid => { st with cronEntries := cronRemove st.cronEntries eid }
        | none => st).cronEntries → p.2.name ≠ job.name := by
  intro p hp hname
  cases heq : assocGet st.jobs job.name with
  | none =>
      rw [heq] at hp
      have := hwf.1 p hp
      rw [hname, heq] at this
      exact Option.noConfusion this
  | some eid =>
      rw [heq] at hp
      simp only [cronRemove, List.mem_filter, decide_eq_true_eq] at hp
      have := hwf.1 p hp.1
      rw [hname, heq] at this
      exact hp.2 (Option.some.injEq _ _ ▸ this.symm ▸ rfl)

/-- Well-formedness of the state a successful `AddJob` builds: the
surviving entries (all from the old state, none carrying the new name)
plus the fresh entry, the bumped allocator, and the updated `jobs`
table. -/
theorem schedWF_after_add (st : SchedState) (job : Job)
    (entries1 : List (Nat × Job))
    (hsub : ∀ p ∈ entries1, p ∈ st.cronEntries)
    (hname : ∀ p ∈ entries1, p.2.name ≠ job.name)
    (hwf : SchedWF st) :
    SchedWF ⟨entries1 ++ [(st.nextId, job)], st.nextId + 1,
      assocPut st.jobs job.name st.nextId, st.wheelRunning⟩ := by
  refine ⟨?_, ?_, ?_⟩
  · intro p hp'
    rcases List.mem_append.mp hp' with h1 | h1
    · show assocGet (assocPut st.jobs job.name st.nextId) p.2.name = some p.1
      rw [assocGet_put_ne _ _ _ _ (hname p h1)]
      exact hwf.1 p (hsub p h1)
    · simp only [List.mem_singleton] at h1
      subst h1
      exact assocGet_put_self _ _ _
  · intro p hp'
    show p.1 < st.nextId + 1
    rcases List.mem_append.mp hp' with h1 | h1
    · have := hwf.2.1 p (hsub p h1)
      omega
    · simp only [List.mem_singleton] at h1
      subst h1
      omega
  · intro q hq
    show q.2 < st.nextId + 1
    rcases mem_assocPut _ _ _ _ hq with h1 | h1
    · subst h1
      omega
    · have := hwf.2.2 q h1
      omega

/-- Well-formedness after the failing branch of `AddJob`: entries only
shrink, `jobs` and the allocator stay. -/
theorem schedWF_after_fail (st : SchedState) (entries1 : List (Nat × Job))
    (hsub : ∀ p ∈ entries1, p ∈ st.cronEntries) (hwf : SchedWF st) :
    SchedWF ⟨entries1, st.nextId, st.jobs, st.wheelRunning⟩ := by
  refine ⟨?_, ?_, ?_⟩
  · intro p hp'
    exact hwf.1 p (hsub p hp')
  · intro p hp'
    exact hwf.2.1 p (hsub p hp')
  · exact hwf.2.2

/-- Successful `AddJob`: no error, and afterwards exactly one entry for
the name — the fresh one carrying the new job — with well-formedness
preserved. -/
theorem addJob_parse_ok (parse : String → Bool) (st : SchedState) (job : Job)
    (hwf : SchedWF st) (hp : parse job.cronExpr = true) :
    (addJob parse st job).2 = none ∧
    entriesFor (addJob parse st job).1 job.name = [(st.nextId, job)] ∧
    (addJob parse st job).1.nextId = st.nextId + 1 ∧
    SchedWF (addJob parse st job).1 := by
  have hpre := addJob_pre_filter st job hwf
  cases heq : assocGet st.jobs job.name with
  | none =>
      have hpre' : ∀ p ∈ st.cronEntries, p.2.name ≠ job.name :=
        fun p hp' => hpre p (by rw [heq]; exact hp')
      have hstate : addJob parse st job =
          (⟨st.cronEntries ++ [(st.nextId, job)], st.nextId + 1,
            assocPut st.jobs job.name st.nextId, st.wheelRunning⟩, none) := by
        simp [addJob, heq, hp]
      rw [hstate]
      refine ⟨rfl, ?_, rfl, ?_⟩
      · show entriesFor
          ⟨st.cronEntries ++ [(st.nextId, job)], st.nextId + 1,
            assocPut st.jobs job.name st.nextId, st.wheelRunning⟩ job.name =
          [(st.nextId, job)]
        unfold entriesFor
        show List.filter _ (st.cronEntries ++ [(st.nextId, job)]) = _
        rw [List.filter_append]
        rw [List.filter_eq_nil_iff.mpr (fun p hp' => by
          simpa using hpre' p hp')]
        simp
      · exact schedWF_after_add st job st.cronEntries (fun p h => h) hpre' hwf
  | some eid =>
      have hpre' : ∀ p ∈ cronRemove st.cronEntries eid, p.2.name ≠ job.name :=
        fun p hp' => hpre p (by rw [heq]; exact hp')
      have hsub : ∀ p ∈ cronRemove st.cronEntries eid, p ∈ st.cronEntries := by
        intro p hp'
        exact (List.mem_filter.mp hp').1
      have hstate : addJob parse st job =
          (⟨cronRemove st.cronEntries eid ++ [(st.nextId, job)], st.nextId + 1,
            assocPut st.jobs job.name st.nextId, st.wheelRunning⟩, none) := by
        simp [addJob, heq, hp]
      rw [hstate]
      refine ⟨rfl, ?_, rfl, ?_⟩
      · show entriesFor
          ⟨cronRemove st.cronEntries eid ++ [(st.nextId, job)], st.nextId + 1,
            assocPut st.jobs job.name st.nextId, st.wheelRunning⟩ job.name =
          [(st.nextId, job)]
        unfold entriesFor
        show List.filter _ (cronRemove st.cronEntries eid ++ [(st.nextId, job)]) = _
        rw [List.filter_append]
        rw [List.filter_eq_nil_iff.mpr (fun p hp' => by
          simpa using hpre' p hp')]
        simp
      · exact schedWF_after_add st job _ hsub hpre' hwf

/-- Failed `AddJob` (cron parse error): an error is returned, no entry
for the name remains — the previously registered one has already been
removed and is NOT restored — while the `jobs` table and the id
allocator are untouched; well-formedness is preserved. -/
theorem addJob_parse_fail (parse : String → Bool) (st : SchedState) (job : Job)
    (hwf : SchedWF st) (hp : parse job.cronExpr = false) :
    (addJob parse st job).2.isSome = true ∧
    entriesFor (addJob parse st job).1 job.name = [] ∧
    (addJob parse st job).1.jobs = st.jobs ∧
    (addJob parse st job).1.nextId = st.nextId ∧
    SchedWF (addJob parse st job).1 := by
  have hpre := addJob_pre_filter st job hwf
  cases heq : assocGet st.jobs job.name with
  | none =>
      have hpre' : ∀ p ∈ st.cronEntries, p.2.name ≠ job.name :=
        fun p hp' => hpre p (by rw [heq]; exact hp')
      have hstate : addJob parse st job =
          (st, some (.simple ("invalid cron expression: " ++ job.cronExpr))) := by
        simp [addJob, heq, hp]
      rw [hstate]
      refine ⟨rfl, ?_, rfl, rfl, hwf⟩
      show entriesFor st job.name = []
      exact List.filter_eq_nil_iff.mpr (fun p hp' => by simpa using hpre' p hp')
  | some eid =>
      have hpre' : ∀ p ∈ cronRemove st.cronEntries eid, p.2.name ≠ job.name :=
        fun p hp' => hpre p (by rw [heq]; exact hp')
      have hsub : ∀ p ∈ cronRemove st.cronEntries eid, p ∈ st.cronEntries := by
        intro p hp'
        exact (List.mem_filter.mp hp').1
      have hstate : addJob parse st job =
          (⟨cronRemove st.cronEntries eid, st.nextId, st.jobs, st.wheelRunning⟩,
            some (.simple ("invalid cron expression: " ++ job.cronExpr))) := by
        simp [addJob, heq, hp]
      rw [hstate]
      refine ⟨rfl, ?_, rfl, rfl, ?_⟩
      · show entriesFor ⟨cronRemove st.cronEntries eid, st.nextId, st.jobs,
            st.wheelRunning⟩ job.name = []
        exact List.filter_eq_nil_iff.mpr (fun p hp' => by simpa using hpre' p hp')
      · exact schedWF_after_fail st _ hsub hwf

/-- A cron parser stub for concrete scenarios: every expression except
`"bad"` parses. -/
def parseOkExpr : String → Bool := fun s => s != "bad"

/-- A valid shell job named `"j"`. -/
def jobA : Job := ⟨"", "j", "* * * * * *", "shell", ⟨"", "", "echo"⟩, "Allow", none, 0, 0⟩

/-- The same name with an unparsable cron expression. -/
def jobBbad : Job := ⟨"", "j", "bad", "shell", ⟨"", "", "echo"⟩, "Allow", none, 0, 0⟩

/-- **C8 counterexample.** `AddJob` removes the old entry BEFORE parsing
the new expression (cron_scheduler.go lines 54-56 precede line 65); when
the parse then fails, it returns the error without restoring the removed
entry, so the entry table is NOT left as it was before the call: after a
successful add of `"j"` followed by a failing add for the same name, the
scheduler has no entry at all for `"j"`. -/
theorem c8_counterexample :
    (addJob parseOkExpr schedInit jobA).1.cronEntries = [(0, jobA)] ∧
    (addJob parseOkExpr (addJob parseOkExpr schedInit jobA).1 jobBbad).2.isSome = true ∧
    (addJob parseOkExpr (addJob parseOkExpr schedInit jobA).1 jobBbad).1.cronEntries = [] ∧
    (addJob parseOkExpr (addJob parseOkExpr schedInit jobA).1 jobBbad).1.cronEntries ≠
      (addJob parseOkExpr schedInit jobA).1.cronEntries := by
  decide

/-- **C8 (amended).** Over well-formed scheduler states: a successful
`add_job` removes any previous entry for the name and installs exactly
one fresh entry carrying the new job, so after two successful `add_job`
calls for one name exactly one entry exists and it carries the latest
cron expression; on cron-parse failure `add_job` returns an error and
installs nothing, but the replacement is NOT atomic — the previous entry
has already been removed and is not restored (only the `jobs` id map and
the allocator are untouched). -/
theorem c8_addjob_amended (parse : String → Bool) (st : SchedState) (job : Job)
    (hwf : SchedWF st) :
    (parse job.cronExpr = true →
      (addJob parse st job).2 = none ∧
      entriesFor (addJob parse st job).1 job.name = [(st.nextId, job)] ∧
      (∀ job₂, job₂.name = job.name → parse job₂.cronExpr = true →
        entriesFor (addJob parse (addJob parse st job).1 job₂).1 job.name =
          [((addJob parse st job).1.nextId, job₂)])) ∧
    (parse job.cronExpr = false →
      (addJob parse st job).2.isSome = true ∧
      entriesFor (addJob parse st job).1 job.name = [] ∧
      (addJob parse st job).1.jobs = st.jobs ∧
      (addJob parse st job).1.nextId = st.nextId) := by
  constructor
  · intro hp
    have h1 := addJob_parse_ok parse st job hwf hp
    refine ⟨h1.1, h1.2.1, ?_⟩
    intro job₂ hname hp2
    have h2 := addJob_parse_ok parse (addJob parse st job).1 job₂ h1.2.2.2 hp2
    rw [hname] at h2
    exact h2.2.1
  · intro hp
    have h1 := addJob_parse_fail parse st job hwf hp
    exact ⟨h1.1, h1.2.1, h1.2.2.1, h1.2.2.2.1⟩

/-- Witness for C8 (amended): from the fresh scheduler, adding `"j"`
succeeds with a single entry; re-adding the name with expression `"bad"`
fails and leaves no entry for `"j"` while keeping the id map. -/
theorem c8_addjob_amended_witness :
    ((addJob parseOkExpr schedInit jobA).2 = none ∧
      entriesFor (addJob parseOkExpr schedInit jobA).1 jobA.name = [(0, jobA)]) ∧
    ((addJob parseOkExpr (addJob parseOkExpr schedInit jobA).1 jobBbad).2.isSome = true ∧
      entriesFor (addJob parseOkExpr (addJob parseOkExpr schedInit jobA).1 jobBbad).1
        jobBbad.name = []) := by
  have hwf : SchedWF schedInit :=
    ⟨by simp [schedInit], by simp [schedInit], by simp [schedInit]⟩
  have h1 := (c8_addjob_amended parseOkExpr schedInit jobA hwf).1 (by decide)
  have hwf1 : SchedWF (addJob parseOkExpr schedInit jobA).1 :=
    (addJob_parse_ok parseOkExpr schedInit jobA hwf (by decide)).2.2.2
  have h2 := (c8_addjob_amended parseOkExpr (addJob parseOkExpr schedInit jobA).1
    jobBbad hwf1).2 (by decide)
  exact ⟨⟨h1.1, h1.2.1⟩, ⟨h2.1, h2.2.1⟩⟩

end DCron
